import Mathlib

/-!
Shallow embedding of the whisper management commands in
src-tauri/src/commands.rs (model selection, tool probing, transcription
output parsing, and model download) together with proofs of behavioural
properties stated in the specification.

Filesystem paths are modelled as lists of components, the filesystem as
an existence predicate plus a read function, and the network stream as a
list of chunk sizes with an optional failure index.  Message texts are
normalized to avoid apostrophes; numeric formatting is abstracted as a
string parameter where the exact rendering is irrelevant.
-/

/-- A filesystem path, as the list of its components. -/
abbrev FsPath := List String

deriving instance DecidableEq for Except

/-- Data of a string append is the append of the data. -/
theorem strdata_append (s t : String) : (s ++ t).data = s.data ++ t.data := rfl

/-- Rust str trim, on character lists (whitespace on both ends removed). -/
def trimChars (l : List Char) : List Char :=
  ((l.dropWhile Char.isWhitespace).reverse.dropWhile Char.isWhitespace).reverse

/-- Rust str trim on strings. -/
def strTrim (s : String) : String := String.mk (trimChars s.data)

/-- Rust str contains, substring containment. -/
def strContains (s pat : String) : Bool := decide (pat.data <:+: s.data)

/-- Rust Path file stem and extension: split the file name at the last dot;
a name with no dot, or whose only dot is leading, has no extension. -/
def splitStemExt (f : String) : String × Option String :=
  match f.data.reverse.dropWhile (fun c => !(c == '.')) with
  | [] => (f, none)
  | [_] => (f, none)
  | _ :: stemRev =>
      (String.mk stemRev.reverse,
       some (String.mk ((f.data.reverse.takeWhile (fun c => !(c == '.'))).reverse)))

/-- Rust Path with_extension on a file name: replace the extension. -/
def withExtension (f e : String) : String :=
  let stem := (splitStemExt f).1
  if e == "" then stem else stem ++ "." ++ e

/-- Rust Path with_extension on a full path: rewrite the last component. -/
def pathWithExtension (p : FsPath) (e : String) : FsPath :=
  match p.reverse with
  | [] => []
  | f :: rest => (withExtension f e :: rest).reverse

/-- Rust str split on a separator character, over character lists. -/
def splitOnChar (c : Char) : List Char → List (List Char)
  | [] => [[]]
  | x :: xs =>
      let r := splitOnChar c xs
      if x == c then [] :: r
      else
        match r with
        | [] => [[x]]
        | h :: t => (x :: h) :: t

/-- The last segment of a URL split on slashes, as in download_url.split.last. -/
def urlLastSegment (url : String) : Option String :=
  ((splitOnChar '/' url.data).map String.mk).getLast?

/-- The per-application whisper installation directory, home/.voiceintelligence/whisper. -/
def installDir (home : FsPath) : FsPath := home ++ [".voiceintelligence", "whisper"]

/-- Multilingual model file name table from get_model_path. -/
def multiModelName (model : String) : String :=
  if model == "tiny" || model == "tiny.en" then "ggml-tiny.bin"
  else if model == "base" || model == "base.en" then "ggml-base.bin"
  else if model == "small" || model == "small.en" then "ggml-small.bin"
  else if model == "medium" || model == "medium.en" then "ggml-medium.bin"
  else if model == "large" then "ggml-large.bin"
  else "ggml-base.bin"

/-- English-restricted model file name table from get_model_path; it is also
the fallback table used when a multilingual model is missing. -/
def englishModelName (model : String) : String :=
  if model == "tiny" || model == "tiny.en" then "ggml-tiny.en.bin"
  else if model == "base" || model == "base.en" then "ggml-base.en.bin"
  else if model == "small" || model == "small.en" then "ggml-small.en.bin"
  else if model == "medium" || model == "medium.en" then "ggml-medium.en.bin"
  else if model == "large" then "ggml-large.bin"
  else "ggml-base.en.bin"

/-- The directories searched for a model file, in order: the optional
models subdirectory of the install dir (when the install dir exists),
the install dir, the generic cache dir, the whisper.cpp models dir, the
working-directory models dir, and the working directory itself. -/
def searchDirs (home : FsPath) (fs : FsPath → Bool) : List FsPath :=
  let base : List FsPath :=
    [installDir home,
     home ++ [".cache", "whisper"],
     home ++ ["whisper.cpp", "models"],
     ["models"],
     []]
  if fs (installDir home) then (installDir home ++ ["models"]) :: base else base

/-- The candidate paths searched for a model file name. -/
def searchPaths (home : FsPath) (fs : FsPath → Bool) (name : String) : List FsPath :=
  (searchDirs home fs).map (fun d => d ++ [name])

/-- The directories searched in the English fallback pass of get_model_path. -/
def fallbackDirs (home : FsPath) : List FsPath :=
  [installDir home,
   home ++ [".cache", "whisper"],
   home ++ ["whisper.cpp", "models"]]

/-- The candidate paths of the English fallback pass. -/
def fallbackPaths (home : FsPath) (name : String) : List FsPath :=
  (fallbackDirs home).map (fun d => d ++ [name])

/-- Path rendered as a string for diagnostics. -/
def pathToString (p : FsPath) : String := String.intercalate "/" p

/-- Diagnostic message of get_model_path when no candidate exists. -/
def modelNotFoundMsg (name language : String) (paths : List FsPath) (multi : Bool) : String :=
  let hint :=
    if multi then
      "\n\nFor " ++ language ++ " transcription, you need the multilingual model " ++ name ++
      ".\nRe-run the whisper installation or download from:\nhttps://huggingface.co/ggerganov/whisper.cpp/resolve/main/" ++ name
    else ""
  "Whisper model " ++ name ++ " not found. Searched in:\n" ++
    String.intercalate "\n" (paths.map pathToString) ++ hint

/-- The file name chosen by get_model_path: multilingual whenever the
language is not en, English-restricted otherwise. -/
def chosenModelName (model language : String) : String :=
  if language != "en" then multiModelName model else englishModelName model

/-- Embedding of get_model_path: choose a file name from the model tag and
language, search the candidate paths, then for non-English languages fall
back to the English-restricted file before failing. -/
def get_model_path (model language : String) (home : FsPath) (fs : FsPath → Bool) :
    Except String FsPath :=
  match (searchPaths home fs (chosenModelName model language)).find? fs with
  | some p => Except.ok p
  | none =>
      if language != "en" then
        match (fallbackPaths home (englishModelName model)).find? fs with
        | some p => Except.ok p
        | none => Except.error (modelNotFoundMsg (chosenModelName model language) language
            (searchPaths home fs (chosenModelName model language)) true)
      else Except.error (modelNotFoundMsg (chosenModelName model language) language
          (searchPaths home fs (chosenModelName model language)) false)

/-- Every primary candidate path ends in the searched file name. -/
theorem searchPaths_getLast (home : FsPath) (fs : FsPath → Bool) (name : String) :
    ∀ p ∈ searchPaths home fs name, p.getLast? = some name := by
  intro p hp
  rcases List.mem_map.mp hp with ⟨d, _, rfl⟩
  exact List.getLast?_concat d

/-- Every fallback candidate path ends in the searched file name. -/
theorem fallbackPaths_getLast (home : FsPath) (name : String) :
    ∀ p ∈ fallbackPaths home name, p.getLast? = some name := by
  intro p hp
  rcases List.mem_map.mp hp with ⟨d, _, rfl⟩
  exact List.getLast?_concat d

/-- C1: for every target language other than en with size base, if the
multilingual file ggml-base.bin is absent from every searched candidate
path and the English-restricted file ggml-base.en.bin is present among
the fallback candidate paths, get_model_path returns Ok with a path whose
file name is ggml-base.en.bin, never an error. -/
theorem get_model_path_base_fallback (language : String) (home : FsPath)
    (fs : FsPath → Bool) (hlang : language ≠ "en")
    (habs : ∀ p ∈ searchPaths home fs "ggml-base.bin", fs p = false)
    (hen : ∃ p ∈ fallbackPaths home "ggml-base.en.bin", fs p = true) :
    ∃ p, get_model_path "base" language home fs = Except.ok p ∧
      p.getLast? = some "ggml-base.en.bin" := by
  have hml : (language != "en") = true := by
    simp [bne_iff_ne, hlang]
  have hnone : (searchPaths home fs "ggml-base.bin").find? fs = none := by
    rw [List.find?_eq_none]
    intro x hx
    simp [habs x hx]
  have hsome : ((fallbackPaths home "ggml-base.en.bin").find? fs).isSome := by
    rw [List.find?_isSome]
    rcases hen with ⟨p, hp, hfs⟩
    exact ⟨p, hp, by simp [hfs]⟩
  rcases Option.isSome_iff_exists.mp hsome with ⟨q, hq⟩
  have hch : chosenModelName "base" language = "ggml-base.bin" := by
    unfold chosenModelName
    rw [hml]
    rfl
  refine ⟨q, ?_, ?_⟩
  · unfold get_model_path
    rw [hch, show englishModelName "base" = "ggml-base.en.bin" from rfl, hnone, hml, hq]
    rfl
  · exact fallbackPaths_getLast home "ggml-base.en.bin" q (List.mem_of_find?_eq_some hq)

/-- Witness for C1 at a concrete filesystem holding only the English base model. -/
theorem get_model_path_base_fallback_witness :
    ("de" ≠ "en") ∧
    (∀ p ∈ searchPaths ["h"] (fun q => q == ["h", ".voiceintelligence", "whisper", "ggml-base.en.bin"]) "ggml-base.bin",
      (fun q => q == ["h", ".voiceintelligence", "whisper", "ggml-base.en.bin"]) p = false) ∧
    (∃ p ∈ fallbackPaths ["h"] "ggml-base.en.bin",
      (fun q => q == ["h", ".voiceintelligence", "whisper", "ggml-base.en.bin"]) p = true) ∧
    (∃ p, get_model_path "base" "de" ["h"]
        (fun q => q == ["h", ".voiceintelligence", "whisper", "ggml-base.en.bin"]) = Except.ok p ∧
      p.getLast? = some "ggml-base.en.bin") :=
  ⟨by decide, by decide, by decide,
   get_model_path_base_fallback "de" ["h"] _ (by decide) (by decide) (by decide)⟩

/-- Any Ok result of get_model_path ends in the primary chosen file name or in
the English fallback file name. -/
theorem get_model_path_ok_name (model language : String) (home : FsPath)
    (fs : FsPath → Bool) (p : FsPath)
    (h : get_model_path model language home fs = Except.ok p) :
    p.getLast? = some (chosenModelName model language) ∨
    p.getLast? = some (englishModelName model) := by
  unfold get_model_path at h
  split at h
  · next q hq =>
      injection h with h
      subst h
      left
      exact searchPaths_getLast home fs _ q (List.mem_of_find?_eq_some hq)
  · split at h
    · split at h
      · next q hq =>
          injection h with h
          subst h
          right
          exact fallbackPaths_getLast home _ q (List.mem_of_find?_eq_some hq)
      · simp at h
    · simp at h

/-- C9: for every target language, get_model_path with size tag large only
ever resolves to a path whose file name is the multilingual ggml-large.bin,
and for language en every other recognized size tag resolves to the
English-restricted .en file of that size. -/
theorem get_model_path_large_and_english :
    (∀ language home fs p, get_model_path "large" language home fs = Except.ok p →
        p.getLast? = some "ggml-large.bin") ∧
    (∀ mf ∈ [("tiny", "ggml-tiny.en.bin"), ("tiny.en", "ggml-tiny.en.bin"),
             ("base", "ggml-base.en.bin"), ("base.en", "ggml-base.en.bin"),
             ("small", "ggml-small.en.bin"), ("small.en", "ggml-small.en.bin"),
             ("medium", "ggml-medium.en.bin"), ("medium.en", "ggml-medium.en.bin")],
        englishModelName mf.1 = mf.2 ∧
        ∀ home fs p, get_model_path mf.1 "en" home fs = Except.ok p →
          p.getLast? = some mf.2) := by
  constructor
  · intro language home fs p h
    have hch : chosenModelName "large" language = "ggml-large.bin" := by
      unfold chosenModelName
      cases hb : (language != "en") <;>
        simp [hb, show multiModelName "large" = "ggml-large.bin" from rfl,
          show englishModelName "large" = "ggml-large.bin" from rfl]
    rcases get_model_path_ok_name "large" language home fs p h with h' | h'
    · rw [hch] at h'
      exact h'
    · rw [show englishModelName "large" = "ggml-large.bin" from rfl] at h'
      exact h'
  · intro mf hmf
    have hen : englishModelName mf.1 = mf.2 := by
      fin_cases hmf <;> rfl
    refine ⟨hen, ?_⟩
    intro home fs p h
    have hch : chosenModelName mf.1 "en" = englishModelName mf.1 := by
      unfold chosenModelName
      simp
    rcases get_model_path_ok_name mf.1 "en" home fs p h with h' | h'
    · rw [hch, hen] at h'
      exact h'
    · rw [hen] at h'
      exact h'

/-- Witness for C9 on a filesystem where every path exists. -/
theorem get_model_path_large_and_english_witness :
    (get_model_path "large" "de" ["h"] (fun _ => true) =
        Except.ok ["h", ".voiceintelligence", "whisper", "models", "ggml-large.bin"]) ∧
    (["h", ".voiceintelligence", "whisper", "models", "ggml-large.bin"] : FsPath).getLast? =
        some "ggml-large.bin" ∧
    (get_model_path "base" "en" ["h"] (fun _ => true) =
        Except.ok ["h", ".voiceintelligence", "whisper", "models", "ggml-base.en.bin"]) ∧
    (["h", ".voiceintelligence", "whisper", "models", "ggml-base.en.bin"] : FsPath).getLast? =
        some "ggml-base.en.bin" :=
  ⟨by decide,
   get_model_path_large_and_english.1 "de" ["h"] (fun _ => true) _ (by decide),
   by decide,
   (get_model_path_large_and_english.2 ("base", "ggml-base.en.bin")
      (by decide)).2 ["h"] (fun _ => true) _ (by decide)⟩

/-- C10: a model tag outside the recognized set is not rejected; it selects
the base file names and get_model_path behaves exactly as for the base tag. -/
theorem get_model_path_unknown_defaults_base (m : String)
    (hm : m ∉ ["tiny", "tiny.en", "base", "base.en", "small", "small.en",
               "medium", "medium.en", "large"]) :
    multiModelName m = "ggml-base.bin" ∧ englishModelName m = "ggml-base.en.bin" ∧
    ∀ language home fs, get_model_path m language home fs =
      get_model_path "base" language home fs := by
  simp only [List.mem_cons, List.not_mem_nil, or_false, not_or] at hm
  obtain ⟨h1, h2, h3, h4, h5, h6, h7, h8, h9⟩ := hm
  have hmm : multiModelName m = "ggml-base.bin" := by
    simp [multiModelName, h1, h2, h3, h4, h5, h6, h7, h8, h9]
  have hen : englishModelName m = "ggml-base.en.bin" := by
    simp [englishModelName, h1, h2, h3, h4, h5, h6, h7, h8, h9]
  refine ⟨hmm, hen, ?_⟩
  intro language home fs
  have hcc : chosenModelName m language = chosenModelName "base" language := by
    unfold chosenModelName
    rw [hmm, hen, show multiModelName "base" = "ggml-base.bin" from rfl,
       show englishModelName "base" = "ggml-base.en.bin" from rfl]
  have hee : englishModelName m = englishModelName "base" := by
    rw [hen]
    rfl
  unfold get_model_path
  rw [hcc, hee]

/-- Witness for C10 at the unrecognized tag foo. -/
theorem get_model_path_unknown_defaults_base_witness :
    ("foo" ∉ ["tiny", "tiny.en", "base", "base.en", "small", "small.en",
              "medium", "medium.en", "large"]) ∧
    multiModelName "foo" = "ggml-base.bin" ∧
    englishModelName "foo" = "ggml-base.en.bin" ∧
    get_model_path "foo" "de" ["h"] (fun _ => false) =
      get_model_path "base" "de" ["h"] (fun _ => false) :=
  ⟨by decide,
   (get_model_path_unknown_defaults_base "foo" (by decide)).1,
   (get_model_path_unknown_defaults_base "foo" (by decide)).2.1,
   (get_model_path_unknown_defaults_base "foo" (by decide)).2.2 "de" ["h"] (fun _ => false)⟩

/-- Two strings with the same character data are equal. -/
theorem string_eq_of_data (s t : String) (h : s.data = t.data) : s = t := by
  cases s
  cases t
  exact congrArg String.mk h

/-- splitStemExt of a name of the form stem.wav, for nonempty stem: the stem
is recovered and the extension is wav. -/
theorem splitStemExt_wav (stem : String) (h : stem.data ≠ []) :
    splitStemExt (stem ++ ".wav") = (stem, some "wav") := by
  unfold splitStemExt
  have hdata : (stem ++ ".wav").data = stem.data ++ ['.', 'w', 'a', 'v'] := by
    rw [strdata_append]
  rw [hdata, List.reverse_append,
    show (['.', 'w', 'a', 'v'] : List Char).reverse = ['v', 'a', 'w', '.'] from rfl]
  cases hs : stem.data.reverse with
  | nil => exact absurd (by simpa using congrArg List.reverse hs) h
  | cons a as =>
      have hdrop : List.dropWhile (fun c => !(c == '.'))
          ((['v', 'a', 'w', '.'] : List Char) ++ (a :: as)) = '.' :: a :: as := rfl
      have htake : List.takeWhile (fun c => !(c == '.'))
          ((['v', 'a', 'w', '.'] : List Char) ++ (a :: as)) = ['v', 'a', 'w'] := rfl
      rw [hdrop, htake]
      have has : (a :: as).reverse = stem.data := by
        rw [← hs, List.reverse_reverse]
      show (String.mk (a :: as).reverse, some (String.mk (['v', 'a', 'w'] : List Char).reverse))
          = (stem, some "wav")
      rw [has]
      rfl

/-- withExtension on a stem.wav file replaces the wav extension. -/
theorem withExtension_wav (stem : String) (h : stem.data ≠ []) (e : String)
    (he : (e == "") = false) :
    withExtension (stem ++ ".wav") e = stem ++ "." ++ e := by
  unfold withExtension
  rw [splitStemExt_wav stem h]
  simp [he]

/-- pathWithExtension rewrites exactly the final path component. -/
theorem pathWithExtension_concat (dir : FsPath) (f e : String) :
    pathWithExtension (dir ++ [f]) e = dir ++ [withExtension f e] := by
  unfold pathWithExtension
  rw [List.reverse_append]
  show (withExtension f e :: dir.reverse).reverse = dir ++ [withExtension f e]
  rw [List.reverse_cons, List.reverse_reverse]

/-- Captured output of the whisper subprocess: exit success flag, a rendering
of the exit code, and the two streams. -/
structure ProcOut where
  success : Bool
  codeRepr : String
  stdout : String
  stderr : String
deriving DecidableEq

/-- Error message of transcribe_audio on a non-zero exit, carrying the exit
code, the command line and both streams. -/
def processFailureMsg (codeRepr cmdStr stderrS stdoutS : String) : String :=
  "Whisper transcription failed (exit code: " ++ codeRepr ++ ").\n\nCommand: " ++
    cmdStr ++ "\n\nStderr:\n" ++ stderrS ++ "\n\nStdout:\n" ++ stdoutS

/-- Error message of transcribe_audio when the final text is empty, carrying
both streams. -/
def emptyResultMsg (stderrS stdoutS : String) : String :=
  "Whisper returned empty transcription.\n\nThis could mean:\n- The audio is too short or silent\n- The audio format is not supported\n- Whisper could not process the file\n\nStderr: " ++
    stderrS ++ "\nStdout: " ++ stdoutS

/-- First side-file probe of transcribe_audio: the audio path with its
extension rewritten to wav.txt; if it exists it is read (the text becoming
its trimmed content on a successful read) and removed. -/
def sideFileFirst (wavPath : FsPath) (text0 : String)
    (fsE : FsPath → Bool) (fsR : FsPath → Option String) : String × List FsPath :=
  if fsE (pathWithExtension wavPath "wav.txt") then
    (match fsR (pathWithExtension wavPath "wav.txt") with
     | some content => strTrim content
     | none => text0, [pathWithExtension wavPath "wav.txt"])
  else (text0, [])

/-- Second side-file probe of transcribe_audio: the audio path with its
extension rewritten to txt, consulted only while the text is still empty. -/
def sideFileSecond (wavPath : FsPath) (step1 : String × List FsPath)
    (fsE : FsPath → Bool) (fsR : FsPath → Option String) : String × List FsPath :=
  if step1.1 == "" && fsE (pathWithExtension wavPath "txt") then
    (match fsR (pathWithExtension wavPath "txt") with
     | some content => strTrim content
     | none => step1.1, step1.2 ++ [pathWithExtension wavPath "txt"])
  else step1

/-- The side-file stage of transcribe_audio: when the trimmed stdout text is
empty, probe the audio path with extension rewritten to wav.txt, then with
extension rewritten to txt; each existing probe target is read (the text
becoming its trimmed content on a successful read) and then removed. -/
def sideFileStep (wavPath : FsPath) (text0 : String)
    (fsE : FsPath → Bool) (fsR : FsPath → Option String) : String × List FsPath :=
  if text0 == "" then
    sideFileSecond wavPath (sideFileFirst wavPath text0 fsE fsR) fsE fsR
  else (text0, [])

/-- Result of the output-parsing tail of transcribe_audio: the text or error,
plus the side files removed along the way. -/
structure ParseOutcome where
  result : Except String String
  removed : List FsPath
deriving DecidableEq

/-- The output-parsing tail of transcribe_audio, from the captured subprocess
output to the final text or error. -/
def parseWhisperOutput (wavPath : FsPath) (cmdStr : String) (out : ProcOut)
    (fsE : FsPath → Bool) (fsR : FsPath → Option String) : ParseOutcome :=
  if !out.success then
    { result := Except.error (processFailureMsg out.codeRepr cmdStr out.stderr out.stdout),
      removed := [] }
  else
    let step := sideFileStep wavPath (strTrim out.stdout) fsE fsR
    if step.1 == "" then
      { result := Except.error (emptyResultMsg out.stderr out.stdout), removed := step.2 }
    else
      { result := Except.ok step.1, removed := step.2 }

/-- The audio path with a txt extension appended after its original
extension (the first probe target as the specification words it). -/
def appendTxtPath (p : FsPath) : FsPath :=
  match p.reverse with
  | [] => []
  | f :: rest => ((f ++ ".txt") :: rest).reverse

/-- Side-file lookup as the specification words it: try the audio path with
.txt appended after the original extension, then with the original extension
replaced by .txt; read (trimmed) whichever exists first. -/
def sideFileLookupSpec (p : FsPath) (fsE : FsPath → Bool)
    (fsR : FsPath → Option String) : Option String :=
  if fsE (appendTxtPath p) then (fsR (appendTxtPath p)).map strTrim
  else if fsE (pathWithExtension p "txt") then (fsR (pathWithExtension p "txt")).map strTrim
  else none

/-- appendTxtPath rewrites exactly the final path component. -/
theorem appendTxtPath_concat (dir : FsPath) (f : String) :
    appendTxtPath (dir ++ [f]) = dir ++ [f ++ ".txt"] := by
  unfold appendTxtPath
  rw [List.reverse_append]
  show ((f ++ ".txt") :: dir.reverse).reverse = dir ++ [f ++ ".txt"]
  rw [List.reverse_cons, List.reverse_reverse]

set_option maxRecDepth 4096 in
/-- C3 counterexample: for the audio file a.mp3 with empty stdout and a side
file at a.mp3.txt, the lookup described by the claim finds that file, but
the code probes a.wav.txt and then a.txt, finds nothing, removes nothing,
and ends in the empty-result error. -/
theorem side_file_claim_counterexample :
    sideFileLookupSpec ["a.mp3"] (fun q => q == [("a.mp3.txt" : String)])
        (fun q => if q == [("a.mp3.txt" : String)] then some "hi" else none) = some "hi" ∧
    sideFileStep ["a.mp3"] ""
        (fun q => q == [("a.mp3.txt" : String)])
        (fun q => if q == [("a.mp3.txt" : String)] then some "hi" else none) = ("", []) ∧
    (parseWhisperOutput ["a.mp3"] "cmd" ⟨true, "Some(0)", "", ""⟩
        (fun q => q == [("a.mp3.txt" : String)])
        (fun q => if q == [("a.mp3.txt" : String)] then some "hi" else none)).result =
      Except.error (emptyResultMsg "" "") := by
  decide

/-- A string occurs in any string of which it is a middle segment. -/
theorem strContains_of_append (x s y : String) : strContains (x ++ s ++ y) s = true := by
  unfold strContains
  rw [decide_eq_true_eq]
  exact ⟨x.data, y.data, by simp [strdata_append, List.append_assoc]⟩

/-- A string occurs in any string of which it is a suffix. -/
theorem strContains_of_suffix (x s : String) : strContains (x ++ s) s = true := by
  unfold strContains
  rw [decide_eq_true_eq]
  exact ⟨x.data, [], by simp [strdata_append]⟩

/-- On a zero exit, parseWhisperOutput reduces to the post-processing of the
side-file stage. -/
theorem parseWhisperOutput_success (wavPath : FsPath)
    (cmdStr codeRepr stdoutS stderrS : String)
    (fsE : FsPath → Bool) (fsR : FsPath → Option String) :
    parseWhisperOutput wavPath cmdStr ⟨true, codeRepr, stdoutS, stderrS⟩ fsE fsR =
      (if (sideFileStep wavPath (strTrim stdoutS) fsE fsR).1 == "" then
        { result := Except.error (emptyResultMsg stderrS stdoutS),
          removed := (sideFileStep wavPath (strTrim stdoutS) fsE fsR).2 }
      else
        { result := Except.ok (sideFileStep wavPath (strTrim stdoutS) fsE fsR).1,
          removed := (sideFileStep wavPath (strTrim stdoutS) fsE fsR).2 }) := rfl

set_option maxRecDepth 8192 in
/-- The empty-result error is never equal to a process-failure error: the
two fixed message prefixes differ. -/
theorem emptyResultMsg_ne_processFailureMsg (a b c d e f : String) :
    emptyResultMsg a b ≠ processFailureMsg c d e f := by
  intro h
  have h9 := congrArg (fun s => s.data.take 9) h
  simp only [] at h9
  have e1 : (emptyResultMsg a b).data.take 9 = ("Whisper r").data := by
    unfold emptyResultMsg
    simp only [strdata_append, List.append_assoc]
    rw [List.take_append_of_le_length (by decide)]
    decide
  have e2 : (processFailureMsg c d e f).data.take 9 = ("Whisper t").data := by
    unfold processFailureMsg
    simp only [strdata_append, List.append_assoc]
    rw [List.take_append_of_le_length (by decide)]
    decide
  rw [e1, e2] at h9
  exact absurd h9 (by decide)

/-- C8: when the engine exits zero, transcribe_audio never produces Ok with
empty text; any error it produces in that case is exactly the empty-result
error, which carries the stderr and stdout streams and is distinct from
every process-failure error raised on a non-zero exit. -/
theorem transcribe_empty_result_error (wavPath : FsPath)
    (cmdStr codeRepr stdoutS stderrS : String)
    (fsE : FsPath → Bool) (fsR : FsPath → Option String) :
    (∀ t, (parseWhisperOutput wavPath cmdStr ⟨true, codeRepr, stdoutS, stderrS⟩ fsE fsR).result
        = Except.ok t → t ≠ "") ∧
    (∀ e, (parseWhisperOutput wavPath cmdStr ⟨true, codeRepr, stdoutS, stderrS⟩ fsE fsR).result
        = Except.error e → e = emptyResultMsg stderrS stdoutS) ∧
    (∀ a b c d e f : String, emptyResultMsg a b ≠ processFailureMsg c d e f) ∧
    strContains (emptyResultMsg stderrS stdoutS) stderrS = true ∧
    strContains (emptyResultMsg stderrS stdoutS) stdoutS = true := by
  refine ⟨?_, ?_, fun a b c d e f => emptyResultMsg_ne_processFailureMsg a b c d e f, ?_, ?_⟩
  · intro t h
    rw [parseWhisperOutput_success] at h
    split at h
    · simp at h
    · next hcond =>
        simp only at h
        injection h with h
        simp only [beq_iff_eq] at hcond
        intro he
        exact hcond (by rw [h, he])
  · intro e h
    rw [parseWhisperOutput_success] at h
    split at h
    · simp only at h
      injection h with h
      exact h.symm
    · simp at h
  · show strContains ((("Whisper returned empty transcription.\n\nThis could mean:\n- The audio is too short or silent\n- The audio format is not supported\n- Whisper could not process the file\n\nStderr: " ++ stderrS) ++ "\nStdout: ") ++ stdoutS) stderrS = true
    rw [String.append_assoc]
    exact strContains_of_append _ _ _
  · exact strContains_of_suffix _ _

set_option maxRecDepth 8192 in
/-- Witness for C8: concrete whitespace-only stdout yields the trimmed Ok
text, the two error kinds differ, and the empty-result message carries both
streams. -/
theorem transcribe_empty_result_error_witness :
    ("quiet" : String) ≠ "" ∧
    emptyResultMsg "err" "out" ≠ processFailureMsg "Some(1)" "cmd" "e2" "o2" ∧
    strContains (emptyResultMsg "err" "out") "err" = true ∧
    strContains (emptyResultMsg "err" "out") "out" = true :=
  ⟨(transcribe_empty_result_error ["a.wav"] "cmd" "Some(0)" "  quiet  " "err"
      (fun _ => false) (fun _ => none)).1 "quiet" (by decide),
   (transcribe_empty_result_error ["a.wav"] "cmd" "Some(0)" "out" "err"
      (fun _ => false) (fun _ => none)).2.2.1 "err" "out" "Some(1)" "cmd" "e2" "o2",
   (transcribe_empty_result_error ["a.wav"] "cmd" "Some(0)" "out" "err"
      (fun _ => false) (fun _ => none)).2.2.2.1,
   (transcribe_empty_result_error ["a.wav"] "cmd" "Some(0)" "out" "err"
      (fun _ => false) (fun _ => none)).2.2.2.2⟩

/-- For a file stem.wav, rewriting the extension to wav.txt appends .txt to
the full name. -/
theorem withExtension_wav_txt (stem : String) (h : stem.data ≠ []) :
    withExtension (stem ++ ".wav") "wav.txt" = (stem ++ ".wav") ++ ".txt" := by
  rw [withExtension_wav stem h "wav.txt" rfl, String.append_assoc, String.append_assoc]
  exact congrArg (fun z => stem ++ z) (by decide)

/-- For a file stem.wav, rewriting the extension to txt replaces .wav. -/
theorem withExtension_txt (stem : String) (h : stem.data ≠ []) :
    withExtension (stem ++ ".wav") "txt" = stem ++ ".txt" := by
  rw [withExtension_wav stem h "txt" rfl, String.append_assoc]
  exact congrArg (fun z => stem ++ z) (by decide)

/-- C3 corrected: the side-file lookup first probes the audio path with its
extension rewritten to wav.txt — which for an audio file named stem.wav
equals the audio path with .txt appended, as the claim says, but differs for
other extensions — and then the path with the extension rewritten to txt;
the first existing probe target is read (the text is its trimmed content)
and then removed.  In particular a .wav audio file with empty stdout and a
side file at audio.txt yields the trimmed content and removes the file. -/
theorem side_file_lookup_wav (dir : FsPath) (stem : String) (hstem : stem.data ≠ [])
    (fsE : FsPath → Bool) (fsR : FsPath → Option String)
    (c cmdStr codeRepr stderrS : String) :
    (pathWithExtension (dir ++ [stem ++ ".wav"]) "wav.txt" =
        dir ++ [(stem ++ ".wav") ++ ".txt"] ∧
     appendTxtPath (dir ++ [stem ++ ".wav"]) = dir ++ [(stem ++ ".wav") ++ ".txt"] ∧
     pathWithExtension (dir ++ [stem ++ ".wav"]) "txt" = dir ++ [stem ++ ".txt"]) ∧
    (fsE (dir ++ [(stem ++ ".wav") ++ ".txt"]) = true →
      fsR (dir ++ [(stem ++ ".wav") ++ ".txt"]) = some c → strTrim c ≠ "" →
      sideFileStep (dir ++ [stem ++ ".wav"]) "" fsE fsR =
        (strTrim c, [dir ++ [(stem ++ ".wav") ++ ".txt"]]) ∧
      parseWhisperOutput (dir ++ [stem ++ ".wav"]) cmdStr ⟨true, codeRepr, "", stderrS⟩
          fsE fsR =
        ⟨Except.ok (strTrim c), [dir ++ [(stem ++ ".wav") ++ ".txt"]]⟩) ∧
    (fsE (dir ++ [(stem ++ ".wav") ++ ".txt"]) = false →
      fsE (dir ++ [stem ++ ".txt"]) = true →
      fsR (dir ++ [stem ++ ".txt"]) = some c →
      sideFileStep (dir ++ [stem ++ ".wav"]) "" fsE fsR =
        (strTrim c, [dir ++ [stem ++ ".txt"]])) := by
  have hp1 : pathWithExtension (dir ++ [stem ++ ".wav"]) "wav.txt" =
      dir ++ [(stem ++ ".wav") ++ ".txt"] := by
    rw [pathWithExtension_concat, withExtension_wav_txt stem hstem]
  have hp2 : pathWithExtension (dir ++ [stem ++ ".wav"]) "txt" = dir ++ [stem ++ ".txt"] := by
    rw [pathWithExtension_concat, withExtension_txt stem hstem]
  have hap : appendTxtPath (dir ++ [stem ++ ".wav"]) = dir ++ [(stem ++ ".wav") ++ ".txt"] :=
    appendTxtPath_concat dir (stem ++ ".wav")
  refine ⟨⟨hp1, hap, hp2⟩, ?_, ?_⟩
  · intro hE hR hne
    have hne' : (strTrim c == "") = false := by
      simp [hne]
    have hstep : sideFileStep (dir ++ [stem ++ ".wav"]) "" fsE fsR =
        (strTrim c, [dir ++ [(stem ++ ".wav") ++ ".txt"]]) := by
      unfold sideFileStep sideFileFirst sideFileSecond
      rw [hp1, hp2, hE, hR]
      simp [hne']
    refine ⟨hstep, ?_⟩
    rw [parseWhisperOutput_success]
    rw [show strTrim "" = "" from rfl, hstep]
    simp [hne']
  · intro hE1 hE2 hR
    unfold sideFileStep sideFileFirst sideFileSecond
    rw [hp1, hp2, hE1, hE2, hR]
    simp

set_option maxRecDepth 8192 in
/-- Witness for C3 at the concrete scenario of the specification: stdout is
empty and rec.wav.txt holds two-space-padded text. -/
theorem side_file_lookup_wav_witness :
    (("rec" : String).data ≠ []) ∧
    ((fun q => q == [("rec.wav.txt" : String)]) [("rec.wav.txt" : String)] = true) ∧
    ((fun q => if q == [("rec.wav.txt" : String)] then some "  quiet room  " else none)
        [("rec.wav.txt" : String)] = some "  quiet room  ") ∧
    (strTrim "  quiet room  " ≠ "") ∧
    sideFileStep [("rec.wav" : String)] ""
        (fun q => q == [("rec.wav.txt" : String)])
        (fun q => if q == [("rec.wav.txt" : String)] then some "  quiet room  " else none) =
      (strTrim "  quiet room  ", [[("rec.wav.txt" : String)]]) ∧
    parseWhisperOutput [("rec.wav" : String)] "cmd" ⟨true, "Some(0)", "", "log"⟩
        (fun q => q == [("rec.wav.txt" : String)])
        (fun q => if q == [("rec.wav.txt" : String)] then some "  quiet room  " else none) =
      ⟨Except.ok (strTrim "  quiet room  "), [[("rec.wav.txt" : String)]]⟩ ∧
    strTrim "  quiet room  " = "quiet room" := by
  have h := side_file_lookup_wav [] "rec"
    (by decide)
    (fun q => q == [("rec.wav.txt" : String)])
    (fun q => if q == [("rec.wav.txt" : String)] then some "  quiet room  " else none)
    "  quiet room  " "cmd" "Some(0)" "log"
  have h2 := h.2.1 (by decide) (by decide) (by decide)
  exact ⟨by decide, by decide, by decide, by decide,
    by simpa using h2.1, by simpa using h2.2, by decide⟩

/-- Result of the whisper availability probes. -/
structure WhisperCheckResult where
  available : Bool
  path : Option String
deriving DecidableEq

/-- Embedding of verify_whisper_path: a missing path or a failed spawn is
unavailable; otherwise the candidate is available when the probe process
exits successfully or either stream contains the marker tokens whisper or
usage. -/
def verify_whisper_path (path : String) (pathExists : Bool)
    (probe : Option ProcOut) : WhisperCheckResult :=
  if !pathExists then ⟨false, none⟩
  else
    match probe with
    | some out =>
        if out.success || strContains out.stdout "whisper" || strContains out.stderr "whisper"
            || strContains out.stdout "usage" || strContains out.stderr "usage" then
          ⟨true, some path⟩
        else ⟨false, none⟩
    | none => ⟨false, none⟩

/-- C6: an existing candidate whose probe exits zero is classified available
whatever its output holds, and one whose probe exits non-zero with no marker
token in either stream is classified unavailable. -/
theorem verify_whisper_path_classification (path : String) (out : ProcOut) :
    (out.success = true →
      verify_whisper_path path true (some out) = ⟨true, some path⟩) ∧
    (out.success = false →
      strContains out.stdout "whisper" = false → strContains out.stderr "whisper" = false →
      strContains out.stdout "usage" = false → strContains out.stderr "usage" = false →
      verify_whisper_path path true (some out) = ⟨false, none⟩) := by
  constructor
  · intro hs
    show (if (out.success || strContains out.stdout "whisper" || strContains out.stderr "whisper"
        || strContains out.stdout "usage" || strContains out.stderr "usage") = true then
        ({ available := true, path := some path } : WhisperCheckResult)
      else ⟨false, none⟩) = ⟨true, some path⟩
    rw [hs]
    rfl
  · intro hs h1 h2 h3 h4
    show (if (out.success || strContains out.stdout "whisper" || strContains out.stderr "whisper"
        || strContains out.stdout "usage" || strContains out.stderr "usage") = true then
        ({ available := true, path := some path } : WhisperCheckResult)
      else ⟨false, none⟩) = ⟨false, none⟩
    rw [hs, h1, h2, h3, h4]
    rfl

set_option maxRecDepth 4096 in
/-- Witness for C6: a zero-exit probe with junk output is available, a
non-zero probe with markerless output is unavailable. -/
theorem verify_whisper_path_classification_witness :
    (verify_whisper_path "/bin/w" true (some ⟨true, "Some(0)", "junk", "noise"⟩) =
      ⟨true, some "/bin/w"⟩) ∧
    (verify_whisper_path "/bin/w" true (some ⟨false, "Some(1)", "junk", "noise"⟩) =
      ⟨false, none⟩) :=
  ⟨(verify_whisper_path_classification "/bin/w" ⟨true, "Some(0)", "junk", "noise"⟩).1 rfl,
   (verify_whisper_path_classification "/bin/w" ⟨false, "Some(1)", "junk", "noise"⟩).2
     rfl (by decide) (by decide) (by decide) (by decide)⟩

/-- One row of the static model registry in get_available_models. -/
structure ModelRow where
  id : String
  name : String
  sizeLabel : String
  sizeBytes : Nat
  filename : String
  isMultilingual : Bool
deriving DecidableEq

/-- The static model registry of get_available_models. -/
def modelsInfo : List ModelRow :=
  [⟨"tiny", "Tiny (English)", "75 MB", 75000000, "ggml-tiny.en.bin", false⟩,
   ⟨"tiny-multi", "Tiny (Multilingual)", "75 MB", 75000000, "ggml-tiny.bin", true⟩,
   ⟨"base", "Base (English)", "142 MB", 142000000, "ggml-base.en.bin", false⟩,
   ⟨"base-multi", "Base (Multilingual)", "142 MB", 142000000, "ggml-base.bin", true⟩,
   ⟨"small", "Small (English)", "466 MB", 466000000, "ggml-small.en.bin", false⟩,
   ⟨"small-multi", "Small (Multilingual)", "466 MB", 466000000, "ggml-small.bin", true⟩,
   ⟨"medium", "Medium (English)", "1.5 GB", 1500000000, "ggml-medium.en.bin", false⟩,
   ⟨"medium-multi", "Medium (Multilingual)", "1.5 GB", 1500000000, "ggml-medium.bin", true⟩,
   ⟨"large", "Large (Multilingual)", "2.9 GB", 2900000000, "ggml-large.bin", true⟩]

/-- Base URL of the model artifacts. -/
def whisperBaseUrl : String := "https://huggingface.co/ggerganov/whisper.cpp/resolve/main"

/-- A model as reported by get_available_models. -/
structure WhisperModel where
  id : String
  name : String
  sizeLabel : String
  size_bytes : Nat
  download_url : String
  installed : Bool
  installed_path : Option FsPath
  is_multilingual : Bool
deriving DecidableEq

/-- The WhisperModel derived from a registry row: installation state is
recomputed from file existence at the install dir. -/
def mkWhisperModel (home : FsPath) (fs : FsPath → Bool) (r : ModelRow) : WhisperModel :=
  { id := r.id, name := r.name, sizeLabel := r.sizeLabel, size_bytes := r.sizeBytes,
    download_url := whisperBaseUrl ++ "/" ++ r.filename,
    installed := fs (installDir home ++ [r.filename]),
    installed_path := if fs (installDir home ++ [r.filename])
      then some (installDir home ++ [r.filename]) else none,
    is_multilingual := r.isMultilingual }

/-- Embedding of get_available_models. -/
def get_available_models (home : FsPath) (fs : FsPath → Bool) : List WhisperModel :=
  modelsInfo.map (mkWhisperModel home fs)

theorem mkWhisperModel_id (home : FsPath) (fs : FsPath → Bool) (r : ModelRow) :
    (mkWhisperModel home fs r).id = r.id := rfl

theorem mkWhisperModel_installed (home : FsPath) (fs : FsPath → Bool) (r : ModelRow) :
    (mkWhisperModel home fs r).installed = fs (installDir home ++ [r.filename]) := rfl

theorem mkWhisperModel_installed_path (home : FsPath) (fs : FsPath → Bool) (r : ModelRow) :
    (mkWhisperModel home fs r).installed_path =
      (if fs (installDir home ++ [r.filename])
        then some (installDir home ++ [r.filename]) else none) := rfl

theorem mkWhisperModel_download_url (home : FsPath) (fs : FsPath → Bool) (r : ModelRow) :
    (mkWhisperModel home fs r).download_url = whisperBaseUrl ++ "/" ++ r.filename := rfl

theorem mkWhisperModel_size_bytes (home : FsPath) (fs : FsPath → Bool) (r : ModelRow) :
    (mkWhisperModel home fs r).size_bytes = r.sizeBytes := rfl

/-- A download progress event; the percentage is carried as an exact
rational in place of the f32 of the source (the final event is the literal
100, exact in either representation). -/
structure DownloadProgress where
  model_id : String
  downloaded : Nat
  total : Nat
  percentage : ℚ
  status : String
deriving DecidableEq

/-- Filesystem operations performed by the download engine. -/
inductive FsOp where
  | mkdirAll (p : FsPath)
  | createFile (p : FsPath)
  | writeChunk (p : FsPath) (n : Nat)
  | flushFile (p : FsPath)
  | renameFile (src dst : FsPath)
  | removeFile (p : FsPath)
deriving DecidableEq

/-- The network response stream: HTTP success flag, optional content
length, the delivered chunk sizes, the index of the chunk at which the
stream (or the write of that chunk) fails if any, and the error text. -/
structure NetResponse where
  ok : Bool
  contentLength : Option Nat
  chunks : List Nat
  failAt : Option Nat
  errText : String

/-- The mid-stream progress events: one per chunk whose 100ms gate fires
(the gate abstracted as the boolean oracle emits), carrying the
accumulated byte count. -/
def midProgress (model_id : String) (total : Nat) :
    List Nat → List Bool → Nat → List DownloadProgress
  | [], _, _ => []
  | c :: cs, emits, acc =>
      (if emits.headD false then
        [⟨model_id, acc + c, total, ((acc + c : Nat) : ℚ) / (total : ℚ) * 100, "downloading"⟩]
      else []) ++ midProgress model_id total cs emits.tail (acc + c)

/-- Result record of download_whisper_model. -/
structure DownloadResult where
  success : Bool
  message : String
  model_path : Option FsPath
deriving DecidableEq

/-- Observable outcome of one download_whisper_model run: the returned
value, the emitted progress events, the filesystem operations performed,
and whether a network request was issued. -/
structure DownloadOutcome where
  result : Except String DownloadResult
  events : List DownloadProgress
  ops : List FsOp
  networkUsed : Bool
deriving DecidableEq

/-- The directory-creation step: create the install dir when absent. -/
def dirOps (home : FsPath) (fs : FsPath → Bool) : List FsOp :=
  if fs (installDir home) then [] else [FsOp.mkdirAll (installDir home)]

/-- The streaming phase of download_whisper_model, entered once the model is
known to be absent and the file name resolved: emit the starting event,
issue the request, stream chunks into the temporary file with gated
progress events, then flush, rename and emit the completed event. -/
def downloadFetch (model_id : String) (home : FsPath) (fs : FsPath → Bool)
    (net : NetResponse) (emits : List Bool) (sizeBytes : Nat) (filename : String) :
    DownloadOutcome :=
  if !net.ok then
    ⟨Except.error ("Download failed with status: " ++ net.errText),
     [⟨model_id, 0, sizeBytes, 0, "starting"⟩], dirOps home fs, true⟩
  else
    match net.failAt with
    | some k =>
        ⟨Except.error ("Download error: " ++ net.errText),
         ⟨model_id, 0, sizeBytes, 0, "starting"⟩ ::
           midProgress model_id (net.contentLength.getD sizeBytes) (net.chunks.take k) emits 0,
         dirOps home fs ++
           FsOp.createFile (pathWithExtension (installDir home ++ [filename]) "bin.tmp") ::
           (net.chunks.take k).map
             (FsOp.writeChunk (pathWithExtension (installDir home ++ [filename]) "bin.tmp")),
         true⟩
    | none =>
        ⟨Except.ok ⟨true, "Model " ++ model_id ++ " downloaded successfully",
            some (installDir home ++ [filename])⟩,
         ⟨model_id, 0, sizeBytes, 0, "starting"⟩ ::
           (midProgress model_id (net.contentLength.getD sizeBytes) net.chunks emits 0 ++
            [⟨model_id, net.contentLength.getD sizeBytes, net.contentLength.getD sizeBytes,
              100, "completed"⟩]),
         dirOps home fs ++
           FsOp.createFile (pathWithExtension (installDir home ++ [filename]) "bin.tmp") ::
           (net.chunks.map
             (FsOp.writeChunk (pathWithExtension (installDir home ++ [filename]) "bin.tmp")) ++
            [FsOp.flushFile (pathWithExtension (installDir home ++ [filename]) "bin.tmp"),
             FsOp.renameFile (pathWithExtension (installDir home ++ [filename]) "bin.tmp")
               (installDir home ++ [filename])]),
         true⟩

/-- The body of download_whisper_model once its registry lookup succeeded:
idempotent short-circuit on the installed flag, then file name resolution,
then the streaming phase. -/
def downloadWithModel (model_id : String) (home : FsPath) (fs : FsPath → Bool)
    (net : NetResponse) (emits : List Bool) (m : WhisperModel) : DownloadOutcome :=
  if m.installed then
    ⟨Except.ok ⟨true, "Model already installed", m.installed_path⟩, [], [], false⟩
  else
    match urlLastSegment m.download_url with
    | none => ⟨Except.error "Invalid download URL", [], dirOps home fs, false⟩
    | some filename => downloadFetch model_id home fs net emits m.size_bytes filename

/-- Embedding of download_whisper_model. -/
def download_whisper_model (model_id : String) (home : FsPath) (fs : FsPath → Bool)
    (net : NetResponse) (emits : List Bool) : DownloadOutcome :=
  match (get_available_models home fs).find? (fun m => m.id == model_id) with
  | none => ⟨Except.error ("Model " ++ model_id ++ " not found"), [], [], false⟩
  | some m => downloadWithModel model_id home fs net emits m

/-- Lookup in get_available_models is lookup in the registry. -/
theorem models_find? (home : FsPath) (fs : FsPath → Bool) (model_id : String) :
    (get_available_models home fs).find? (fun m => m.id == model_id) =
      (modelsInfo.find? (fun x => x.id == model_id)).map (mkWhisperModel home fs) := by
  unfold get_available_models
  rw [List.find?_map]
  rfl

/-- download_whisper_model after a successful registry lookup. -/
theorem download_whisper_model_found (model_id : String) (home : FsPath)
    (fs : FsPath → Bool) (net : NetResponse) (emits : List Bool) (r : ModelRow)
    (hr : modelsInfo.find? (fun x => x.id == model_id) = some r) :
    download_whisper_model model_id home fs net emits =
      downloadWithModel model_id home fs net emits (mkWhisperModel home fs r) := by
  unfold download_whisper_model
  rw [models_find?, hr]
  rfl

/-- The idempotent short-circuit of downloadWithModel. -/
theorem downloadWithModel_installed (model_id : String) (home : FsPath)
    (fs : FsPath → Bool) (net : NetResponse) (emits : List Bool) (m : WhisperModel)
    (hinst : m.installed = true) :
    downloadWithModel model_id home fs net emits m =
      ⟨Except.ok ⟨true, "Model already installed", m.installed_path⟩, [], [], false⟩ := by
  unfold downloadWithModel
  rw [hinst]
  rfl

/-- downloadWithModel on an absent model with a resolvable file name. -/
theorem downloadWithModel_fetch (model_id : String) (home : FsPath)
    (fs : FsPath → Bool) (net : NetResponse) (emits : List Bool) (m : WhisperModel)
    (hnot : m.installed = false) (filename : String)
    (hurl : urlLastSegment m.download_url = some filename) :
    downloadWithModel model_id home fs net emits m =
      downloadFetch model_id home fs net emits m.size_bytes filename := by
  unfold downloadWithModel
  rw [hnot, hurl]
  rfl

set_option maxRecDepth 100000 in
/-- Ground facts about every registry row: the download URL splits back to
the file name, the temporary name is the file name plus .tmp, and the two
names differ. -/
theorem registry_facts : ∀ r ∈ modelsInfo,
    urlLastSegment (whisperBaseUrl ++ "/" ++ r.filename) = some r.filename ∧
    withExtension r.filename "bin.tmp" = r.filename ++ ".tmp" ∧
    (r.filename ++ ".tmp") ≠ r.filename := by
  decide

/-- The streaming phase with a reachable stream and no failure. -/
theorem downloadFetch_none (model_id : String) (home : FsPath) (fs : FsPath → Bool)
    (net : NetResponse) (emits : List Bool) (sizeBytes : Nat) (filename : String)
    (hok : net.ok = true) (hfa : net.failAt = none) :
    downloadFetch model_id home fs net emits sizeBytes filename =
      ⟨Except.ok ⟨true, "Model " ++ model_id ++ " downloaded successfully",
          some (installDir home ++ [filename])⟩,
       ⟨model_id, 0, sizeBytes, 0, "starting"⟩ ::
         (midProgress model_id (net.contentLength.getD sizeBytes) net.chunks emits 0 ++
          [⟨model_id, net.contentLength.getD sizeBytes, net.contentLength.getD sizeBytes,
            100, "completed"⟩]),
       dirOps home fs ++
         FsOp.createFile (pathWithExtension (installDir home ++ [filename]) "bin.tmp") ::
         (net.chunks.map
           (FsOp.writeChunk (pathWithExtension (installDir home ++ [filename]) "bin.tmp")) ++
          [FsOp.flushFile (pathWithExtension (installDir home ++ [filename]) "bin.tmp"),
           FsOp.renameFile (pathWithExtension (installDir home ++ [filename]) "bin.tmp")
             (installDir home ++ [filename])]),
       true⟩ := by
  unfold downloadFetch
  rw [hok, hfa]
  rfl

/-- The streaming phase with a reachable stream failing at chunk index k. -/
theorem downloadFetch_some (model_id : String) (home : FsPath) (fs : FsPath → Bool)
    (net : NetResponse) (emits : List Bool) (sizeBytes : Nat) (filename : String) (k : Nat)
    (hok : net.ok = true) (hfa : net.failAt = some k) :
    downloadFetch model_id home fs net emits sizeBytes filename =
      ⟨Except.error ("Download error: " ++ net.errText),
       ⟨model_id, 0, sizeBytes, 0, "starting"⟩ ::
         midProgress model_id (net.contentLength.getD sizeBytes) (net.chunks.take k) emits 0,
       dirOps home fs ++
         FsOp.createFile (pathWithExtension (installDir home ++ [filename]) "bin.tmp") ::
         (net.chunks.take k).map
           (FsOp.writeChunk (pathWithExtension (installDir home ++ [filename]) "bin.tmp")),
       true⟩ := by
  unfold downloadFetch
  rw [hok, hfa]
  rfl

/-- The streaming phase always issues the network request. -/
theorem downloadFetch_network (model_id : String) (home : FsPath) (fs : FsPath → Bool)
    (net : NetResponse) (emits : List Bool) (sizeBytes : Nat) (filename : String) :
    (downloadFetch model_id home fs net emits sizeBytes filename).networkUsed = true := by
  unfold downloadFetch
  split
  · rfl
  · split <;> rfl

/-- C5: if a file of the expected name exists at the installation
directory, download_whisper_model returns success immediately with the
installed path, issues no network request, performs no filesystem
operation, and any two such calls return the identical outcome. -/
theorem download_idempotent_short_circuit (model_id : String) (home : FsPath)
    (fs : FsPath → Bool) (net net2 : NetResponse) (emits emits2 : List Bool) (r : ModelRow)
    (hr : modelsInfo.find? (fun x => x.id == model_id) = some r)
    (hinst : fs (installDir home ++ [r.filename]) = true) :
    download_whisper_model model_id home fs net emits =
      ⟨Except.ok ⟨true, "Model already installed", some (installDir home ++ [r.filename])⟩,
        [], [], false⟩ ∧
    download_whisper_model model_id home fs net emits =
      download_whisper_model model_id home fs net2 emits2 := by
  have h1 : ∀ (n : NetResponse) (e : List Bool),
      download_whisper_model model_id home fs n e =
        ⟨Except.ok ⟨true, "Model already installed", some (installDir home ++ [r.filename])⟩,
          [], [], false⟩ := by
    intro n e
    rw [download_whisper_model_found model_id home fs n e r hr,
      downloadWithModel_installed model_id home fs n e _
        (by rw [mkWhisperModel_installed, hinst]),
      mkWhisperModel_installed_path, hinst]
    rfl
  exact ⟨h1 net emits, (h1 net emits).trans (h1 net2 emits2).symm⟩

set_option maxRecDepth 100000 in
/-- Witness for C5 with the base model already installed. -/
theorem download_idempotent_short_circuit_witness :
    (modelsInfo.find? (fun x => x.id == "base") =
      some ⟨"base", "Base (English)", "142 MB", 142000000, "ggml-base.en.bin", false⟩) ∧
    ((fun q => q == ["h", ".voiceintelligence", "whisper", "ggml-base.en.bin"])
      (installDir ["h"] ++ ["ggml-base.en.bin"]) = true) ∧
    (download_whisper_model "base" ["h"]
        (fun q => q == ["h", ".voiceintelligence", "whisper", "ggml-base.en.bin"])
        ⟨true, none, [5], none, ""⟩ [true] =
      ⟨Except.ok ⟨true, "Model already installed",
          some (installDir ["h"] ++ ["ggml-base.en.bin"])⟩, [], [], false⟩) ∧
    (download_whisper_model "base" ["h"]
        (fun q => q == ["h", ".voiceintelligence", "whisper", "ggml-base.en.bin"])
        ⟨true, none, [5], none, ""⟩ [true] =
      download_whisper_model "base" ["h"]
        (fun q => q == ["h", ".voiceintelligence", "whisper", "ggml-base.en.bin"])
        ⟨false, some 3, [], some 0, "x"⟩ []) :=
  ⟨by decide, by decide,
   (download_idempotent_short_circuit "base" ["h"]
      (fun q => q == ["h", ".voiceintelligence", "whisper", "ggml-base.en.bin"])
      ⟨true, none, [5], none, ""⟩ ⟨false, some 3, [], some 0, "x"⟩ [true] []
      ⟨"base", "Base (English)", "142 MB", 142000000, "ggml-base.en.bin", false⟩
      (by decide) (by decide)).1,
   (download_idempotent_short_circuit "base" ["h"]
      (fun q => q == ["h", ".voiceintelligence", "whisper", "ggml-base.en.bin"])
      ⟨true, none, [5], none, ""⟩ ⟨false, some 3, [], some 0, "x"⟩ [true] []
      ⟨"base", "Base (English)", "142 MB", 142000000, "ggml-base.en.bin", false⟩
      (by decide) (by decide)).2⟩

/-- C4: for an absent model, the temporary path (final name plus .tmp)
differs from the final path; every file creation or chunk write of the run
targets the temporary path only; a complete run ends with the rename of the
temporary path onto the final path as its very last operation; and an
interrupted run performs no rename onto the final path at all, so the final
name is never created with partial content. -/
theorem download_install_atomic (model_id : String) (home : FsPath) (fs : FsPath → Bool)
    (net : NetResponse) (emits : List Bool) (r : ModelRow)
    (hr : modelsInfo.find? (fun x => x.id == model_id) = some r)
    (hnot : fs (installDir home ++ [r.filename]) = false)
    (hok : net.ok = true) :
    installDir home ++ [r.filename ++ ".tmp"] ≠ installDir home ++ [r.filename] ∧
    (∀ op ∈ (download_whisper_model model_id home fs net emits).ops, ∀ p : FsPath,
      (op = FsOp.createFile p ∨ (∃ n, op = FsOp.writeChunk p n)) →
      p = installDir home ++ [r.filename ++ ".tmp"]) ∧
    (net.failAt = none →
      (download_whisper_model model_id home fs net emits).ops.getLast? =
        some (FsOp.renameFile (installDir home ++ [r.filename ++ ".tmp"])
          (installDir home ++ [r.filename]))) ∧
    (∀ k, net.failAt = some k → ∀ src,
      FsOp.renameFile src (installDir home ++ [r.filename]) ∉
        (download_whisper_model model_id home fs net emits).ops) := by
  have hmem := List.mem_of_find?_eq_some hr
  obtain ⟨hurl, htmp, hneq⟩ := registry_facts r hmem
  have htp : pathWithExtension (installDir home ++ [r.filename]) "bin.tmp" =
      installDir home ++ [r.filename ++ ".tmp"] := by
    rw [pathWithExtension_concat, htmp]
  have hdl : download_whisper_model model_id home fs net emits =
      downloadFetch model_id home fs net emits r.sizeBytes r.filename := by
    rw [download_whisper_model_found model_id home fs net emits r hr,
      downloadWithModel_fetch model_id home fs net emits _
        (by rw [mkWhisperModel_installed, hnot]) r.filename
        (by rw [mkWhisperModel_download_url]; exact hurl),
      mkWhisperModel_size_bytes]
  have hdir : ∀ op ∈ dirOps home fs, op = FsOp.mkdirAll (installDir home) := by
    intro op h
    unfold dirOps at h
    split at h
    · simp at h
    · simpa using h
  refine ⟨?_, ?_, ?_, ?_⟩
  · intro h
    have := List.append_cancel_left h
    simp only [List.cons.injEq, and_true] at this
    exact hneq this
  · intro op hop p hcw
    rw [hdl] at hop
    rcases hfa : net.failAt with _ | k
    · rw [downloadFetch_none model_id home fs net emits r.sizeBytes r.filename hok hfa,
        htp] at hop
      rcases List.mem_append.mp hop with h | h
      · rw [hdir op h] at hcw
        rcases hcw with h1 | ⟨n, h1⟩ <;> simp at h1
      · rcases List.mem_cons.mp h with h | h
        · rw [h] at hcw
          rcases hcw with h1 | ⟨n, h1⟩
          · injection h1 with h1
            exact h1.symm
          · simp at h1
        · rcases List.mem_append.mp h with h | h
          · rcases List.mem_map.mp h with ⟨n', _, rfl⟩
            rcases hcw with h1 | ⟨n, h1⟩
            · simp at h1
            · injection h1 with h1 h2
              exact h1.symm
          · simp only [List.mem_cons, List.mem_singleton] at h
            rcases h with rfl | rfl | h
            · rcases hcw with h1 | ⟨n, h1⟩ <;> simp at h1
            · rcases hcw with h1 | ⟨n, h1⟩ <;> simp at h1
            · simp at h
    · rw [downloadFetch_some model_id home fs net emits r.sizeBytes r.filename k hok hfa,
        htp] at hop
      rcases List.mem_append.mp hop with h | h
      · rw [hdir op h] at hcw
        rcases hcw with h1 | ⟨n, h1⟩ <;> simp at h1
      · rcases List.mem_cons.mp h with h | h
        · rw [h] at hcw
          rcases hcw with h1 | ⟨n, h1⟩
          · injection h1 with h1
            exact h1.symm
          · simp at h1
        · rcases List.mem_map.mp h with ⟨n', _, rfl⟩
          rcases hcw with h1 | ⟨n, h1⟩
          · simp at h1
          · injection h1 with h1 h2
            exact h1.symm
  · intro hfa
    rw [hdl, downloadFetch_none model_id home fs net emits r.sizeBytes r.filename hok hfa,
      htp]
    rw [List.getLast?_append_of_ne_nil _ (by simp)]
    have hsplit : FsOp.createFile (installDir home ++ [r.filename ++ ".tmp"]) ::
        (net.chunks.map (FsOp.writeChunk (installDir home ++ [r.filename ++ ".tmp"])) ++
         [FsOp.flushFile (installDir home ++ [r.filename ++ ".tmp"]),
          FsOp.renameFile (installDir home ++ [r.filename ++ ".tmp"])
            (installDir home ++ [r.filename])]) =
        (FsOp.createFile (installDir home ++ [r.filename ++ ".tmp"]) ::
         (net.chunks.map (FsOp.writeChunk (installDir home ++ [r.filename ++ ".tmp"])) ++
          [FsOp.flushFile (installDir home ++ [r.filename ++ ".tmp"])])) ++
        [FsOp.renameFile (installDir home ++ [r.filename ++ ".tmp"])
          (installDir home ++ [r.filename])] := by
      simp
    rw [hsplit, List.getLast?_concat]
  · intro k hfa src hin
    rw [hdl, downloadFetch_some model_id home fs net emits r.sizeBytes r.filename k hok hfa,
      htp] at hin
    rcases List.mem_append.mp hin with h | h
    · have := hdir _ h
      simp at this
    · rcases List.mem_cons.mp h with h | h
      · simp at h
      · rcases List.mem_map.mp h with ⟨n', _, h⟩
        simp at h

set_option maxRecDepth 100000 in
/-- Witness for C4 for the base model, on a complete and an interrupted run. -/
theorem download_install_atomic_witness :
    (modelsInfo.find? (fun x => x.id == "base") =
      some ⟨"base", "Base (English)", "142 MB", 142000000, "ggml-base.en.bin", false⟩) ∧
    installDir ["h"] ++ ["ggml-base.en.bin" ++ ".tmp"] ≠
      installDir ["h"] ++ ["ggml-base.en.bin"] ∧
    ((download_whisper_model "base" ["h"] (fun _ => false)
        ⟨true, none, [5, 7], none, ""⟩ []).ops.getLast? =
      some (FsOp.renameFile (installDir ["h"] ++ ["ggml-base.en.bin" ++ ".tmp"])
        (installDir ["h"] ++ ["ggml-base.en.bin"]))) ∧
    (FsOp.renameFile (installDir ["h"] ++ ["ggml-base.en.bin" ++ ".tmp"])
        (installDir ["h"] ++ ["ggml-base.en.bin"]) ∉
      (download_whisper_model "base" ["h"] (fun _ => false)
        ⟨true, none, [5, 7], some 1, ""⟩ []).ops) :=
  ⟨by decide,
   (download_install_atomic "base" ["h"] (fun _ => false) ⟨true, none, [5, 7], none, ""⟩ []
      ⟨"base", "Base (English)", "142 MB", 142000000, "ggml-base.en.bin", false⟩
      (by decide) (by decide) rfl).1,
   (download_install_atomic "base" ["h"] (fun _ => false) ⟨true, none, [5, 7], none, ""⟩ []
      ⟨"base", "Base (English)", "142 MB", 142000000, "ggml-base.en.bin", false⟩
      (by decide) (by decide) rfl).2.2.1 rfl,
   (download_install_atomic "base" ["h"] (fun _ => false) ⟨true, none, [5, 7], some 1, ""⟩ []
      ⟨"base", "Base (English)", "142 MB", 142000000, "ggml-base.en.bin", false⟩
      (by decide) (by decide) rfl).2.2.2 1 rfl
      (installDir ["h"] ++ ["ggml-base.en.bin" ++ ".tmp"])⟩

/-- C7: a mid-stream chunk failure yields a descriptive error that performs
no file removal (the temporary file stays in place) after creating and
writing only the temporary file; and because the idempotent short-circuit
is keyed on the final name only, any call that finds the final name absent
issues the network request again, whatever else (such as the leftover
temporary file) the filesystem holds. -/
theorem download_failure_retryable (model_id : String) (home : FsPath)
    (fs : FsPath → Bool) (net : NetResponse) (emits : List Bool) (k : Nat) (r : ModelRow)
    (hr : modelsInfo.find? (fun x => x.id == model_id) = some r)
    (hnot : fs (installDir home ++ [r.filename]) = false)
    (hok : net.ok = true) (hfa : net.failAt = some k) :
    (download_whisper_model model_id home fs net emits).result =
      Except.error ("Download error: " ++ net.errText) ∧
    (∀ p, FsOp.removeFile p ∉ (download_whisper_model model_id home fs net emits).ops) ∧
    (download_whisper_model model_id home fs net emits).networkUsed = true ∧
    FsOp.createFile (installDir home ++ [r.filename ++ ".tmp"]) ∈
      (download_whisper_model model_id home fs net emits).ops ∧
    (∀ fs2 net2 emits2, fs2 (installDir home ++ [r.filename]) = false →
      (download_whisper_model model_id home fs2 net2 emits2).networkUsed = true) := by
  have hmem := List.mem_of_find?_eq_some hr
  obtain ⟨hurl, htmp, hneq⟩ := registry_facts r hmem
  have htp : pathWithExtension (installDir home ++ [r.filename]) "bin.tmp" =
      installDir home ++ [r.filename ++ ".tmp"] := by
    rw [pathWithExtension_concat, htmp]
  have hdl : ∀ (fs2 : FsPath → Bool) (net2 : NetResponse) (emits2 : List Bool),
      fs2 (installDir home ++ [r.filename]) = false →
      download_whisper_model model_id home fs2 net2 emits2 =
        downloadFetch model_id home fs2 net2 emits2 r.sizeBytes r.filename := by
    intro fs2 net2 emits2 h2
    rw [download_whisper_model_found model_id home fs2 net2 emits2 r hr,
      downloadWithModel_fetch model_id home fs2 net2 emits2 _
        (by rw [mkWhisperModel_installed, h2]) r.filename
        (by rw [mkWhisperModel_download_url]; exact hurl),
      mkWhisperModel_size_bytes]
  have hdir : ∀ op ∈ dirOps home fs, op = FsOp.mkdirAll (installDir home) := by
    intro op h
    unfold dirOps at h
    split at h
    · simp at h
    · simpa using h
  refine ⟨?_, ?_, ?_, ?_, fun fs2 net2 emits2 h2 => by
    rw [hdl fs2 net2 emits2 h2]
    exact downloadFetch_network model_id home fs2 net2 emits2 r.sizeBytes r.filename⟩
  · rw [hdl fs net emits hnot,
      downloadFetch_some model_id home fs net emits r.sizeBytes r.filename k hok hfa]
  · intro p hin
    rw [hdl fs net emits hnot,
      downloadFetch_some model_id home fs net emits r.sizeBytes r.filename k hok hfa,
      htp] at hin
    rcases List.mem_append.mp hin with h | h
    · have := hdir _ h
      simp at this
    · rcases List.mem_cons.mp h with h | h
      · simp at h
      · rcases List.mem_map.mp h with ⟨n', _, h⟩
        simp at h
  · rw [hdl fs net emits hnot]
    exact downloadFetch_network model_id home fs net emits r.sizeBytes r.filename
  · rw [hdl fs net emits hnot,
      downloadFetch_some model_id home fs net emits r.sizeBytes r.filename k hok hfa,
      htp]
    exact List.mem_append_right _ (List.mem_cons_self _ _)

set_option maxRecDepth 100000 in
/-- Witness for C7: an interrupted base-model run, and a retry on a
filesystem where only the leftover temporary file exists. -/
theorem download_failure_retryable_witness :
    ((download_whisper_model "base" ["h"] (fun _ => false)
        ⟨true, none, [5, 7], some 1, "reset"⟩ []).result =
      Except.error ("Download error: " ++ "reset")) ∧
    (FsOp.removeFile (installDir ["h"] ++ ["ggml-base.en.bin" ++ ".tmp"]) ∉
      (download_whisper_model "base" ["h"] (fun _ => false)
        ⟨true, none, [5, 7], some 1, "reset"⟩ []).ops) ∧
    ((download_whisper_model "base" ["h"] (fun _ => false)
        ⟨true, none, [5, 7], some 1, "reset"⟩ []).networkUsed = true) ∧
    (FsOp.createFile (installDir ["h"] ++ ["ggml-base.en.bin" ++ ".tmp"]) ∈
      (download_whisper_model "base" ["h"] (fun _ => false)
        ⟨true, none, [5, 7], some 1, "reset"⟩ []).ops) ∧
    ((download_whisper_model "base" ["h"]
        (fun q => q == ["h", ".voiceintelligence", "whisper", "ggml-base.en.bin.tmp"])
        ⟨true, none, [5, 7], none, ""⟩ []).networkUsed = true) :=
  ⟨(download_failure_retryable "base" ["h"] (fun _ => false)
      ⟨true, none, [5, 7], some 1, "reset"⟩ [] 1
      ⟨"base", "Base (English)", "142 MB", 142000000, "ggml-base.en.bin", false⟩
      (by decide) (by decide) rfl rfl).1,
   (download_failure_retryable "base" ["h"] (fun _ => false)
      ⟨true, none, [5, 7], some 1, "reset"⟩ [] 1
      ⟨"base", "Base (English)", "142 MB", 142000000, "ggml-base.en.bin", false⟩
      (by decide) (by decide) rfl rfl).2.1 _,
   (download_failure_retryable "base" ["h"] (fun _ => false)
      ⟨true, none, [5, 7], some 1, "reset"⟩ [] 1
      ⟨"base", "Base (English)", "142 MB", 142000000, "ggml-base.en.bin", false⟩
      (by decide) (by decide) rfl rfl).2.2.1,
   (download_failure_retryable "base" ["h"] (fun _ => false)
      ⟨true, none, [5, 7], some 1, "reset"⟩ [] 1
      ⟨"base", "Base (English)", "142 MB", 142000000, "ggml-base.en.bin", false⟩
      (by decide) (by decide) rfl rfl).2.2.2.1,
   (download_failure_retryable "base" ["h"] (fun _ => false)
      ⟨true, none, [5, 7], some 1, "reset"⟩ [] 1
      ⟨"base", "Base (English)", "142 MB", 142000000, "ggml-base.en.bin", false⟩
      (by decide) (by decide) rfl rfl).2.2.2.2
      (fun q => q == ["h", ".voiceintelligence", "whisper", "ggml-base.en.bin.tmp"])
      ⟨true, none, [5, 7], none, ""⟩ [] (by decide)⟩

/-- midProgress on a chunk whose gate fires. -/
theorem midProgress_cons_true (model_id : String) (total c : Nat) (cs : List Nat)
    (emits : List Bool) (acc : Nat) (he : emits.headD false = true) :
    midProgress model_id total (c :: cs) emits acc =
      ⟨model_id, acc + c, total, ((acc + c : Nat) : ℚ) / (total : ℚ) * 100, "downloading"⟩ ::
        midProgress model_id total cs emits.tail (acc + c) := by
  have heq : midProgress model_id total (c :: cs) emits acc =
      (if emits.headD false then
        [⟨model_id, acc + c, total, ((acc + c : Nat) : ℚ) / (total : ℚ) * 100, "downloading"⟩]
      else []) ++ midProgress model_id total cs emits.tail (acc + c) := rfl
  rw [heq, he]
  rfl

/-- midProgress on a chunk whose gate does not fire. -/
theorem midProgress_cons_false (model_id : String) (total c : Nat) (cs : List Nat)
    (emits : List Bool) (acc : Nat) (he : emits.headD false = false) :
    midProgress model_id total (c :: cs) emits acc =
      midProgress model_id total cs emits.tail (acc + c) := by
  have heq : midProgress model_id total (c :: cs) emits acc =
      (if emits.headD false then
        [⟨model_id, acc + c, total, ((acc + c : Nat) : ℚ) / (total : ℚ) * 100, "downloading"⟩]
      else []) ++ midProgress model_id total cs emits.tail (acc + c) := rfl
  rw [heq, he]
  rfl

/-- The byte counts of the mid-stream events form a non-decreasing chain
above the accumulator and are bounded by the accumulator plus the
remaining bytes. -/
theorem midProgress_chain (model_id : String) (total : Nat) (cs : List Nat) :
    ∀ (emits : List Bool) (acc : Nat),
      List.Chain' (· ≤ ·)
        (acc :: (midProgress model_id total cs emits acc).map (·.downloaded)) ∧
      ∀ d ∈ (midProgress model_id total cs emits acc).map (·.downloaded),
        d ≤ acc + cs.sum := by
  induction cs with
  | nil =>
      intro emits acc
      constructor
      · exact List.chain'_singleton acc
      · intro d hd
        have heq : midProgress model_id total [] emits acc = [] := rfl
        rw [heq] at hd
        simp at hd
  | cons c cs ih =>
      intro emits acc
      cases he : emits.headD false
      · rw [midProgress_cons_false model_id total c cs emits acc he]
        constructor
        · have h1 := (ih emits.tail (acc + c)).1
          rw [List.chain'_cons'] at h1 ⊢
          exact ⟨fun y hy => le_trans (Nat.le_add_right acc c) (h1.1 y hy), h1.2⟩
        · intro d hd
          have hb := (ih emits.tail (acc + c)).2 d hd
          rw [List.sum_cons]
          omega
      · rw [midProgress_cons_true model_id total c cs emits acc he]
        constructor
        · rw [List.map_cons, List.chain'_cons]
          exact ⟨Nat.le_add_right acc c, (ih emits.tail (acc + c)).1⟩
        · intro d hd
          rw [List.map_cons, List.mem_cons] at hd
          rcases hd with rfl | hd
          · show acc + c ≤ acc + (c :: cs).sum
            rw [List.sum_cons]
            omega
          · have hb := (ih emits.tail (acc + c)).2 d hd
            rw [List.sum_cons]
            omega

/-- C2 corrected: in a completed run whose streamed byte total does not
exceed the progress denominator (the content length, or the static size
when absent), the downloaded values of the emitted events are
non-decreasing, and the final emitted event is the completed event, whose
downloaded count is the denominator and whose percentage is exactly 100.
Without the byte bound the downloaded sequence can decrease at the final
event, because the completed event always reports the denominator. -/
theorem download_progress_monotone (model_id : String) (home : FsPath)
    (fs : FsPath → Bool) (net : NetResponse) (emits : List Bool) (r : ModelRow)
    (hr : modelsInfo.find? (fun x => x.id == model_id) = some r)
    (hnot : fs (installDir home ++ [r.filename]) = false)
    (hok : net.ok = true) (hfa : net.failAt = none)
    (hsum : net.chunks.sum ≤ net.contentLength.getD r.sizeBytes) :
    List.Chain' (· ≤ ·)
      ((download_whisper_model model_id home fs net emits).events.map (·.downloaded)) ∧
    (download_whisper_model model_id home fs net emits).events.getLast? =
      some ⟨model_id, net.contentLength.getD r.sizeBytes,
        net.contentLength.getD r.sizeBytes, 100, "completed"⟩ := by
  have hmem := List.mem_of_find?_eq_some hr
  obtain ⟨hurl, -, -⟩ := registry_facts r hmem
  have hdl : download_whisper_model model_id home fs net emits =
      downloadFetch model_id home fs net emits r.sizeBytes r.filename := by
    rw [download_whisper_model_found model_id home fs net emits r hr,
      downloadWithModel_fetch model_id home fs net emits _
        (by rw [mkWhisperModel_installed, hnot]) r.filename
        (by rw [mkWhisperModel_download_url]; exact hurl),
      mkWhisperModel_size_bytes]
  rw [hdl, downloadFetch_none model_id home fs net emits r.sizeBytes r.filename hok hfa]
  constructor
  · simp only [List.map_cons, List.map_append, List.map_nil]
    rw [← List.cons_append, List.chain'_append]
    have hchain := (midProgress_chain model_id (net.contentLength.getD r.sizeBytes)
      net.chunks emits 0).1
    have hbound := (midProgress_chain model_id (net.contentLength.getD r.sizeBytes)
      net.chunks emits 0).2
    refine ⟨hchain, List.chain'_singleton _, ?_⟩
    intro x hx y hy
    simp only [List.head?_cons, Option.mem_def, Option.some.injEq] at hy
    subst hy
    show x ≤ net.contentLength.getD r.sizeBytes
    rcases List.mem_getLast?_eq_getLast hx with ⟨hne, rfl⟩
    rcases List.mem_cons.mp (List.getLast_mem hne) with heq | hmem'
    · rw [heq]
      exact Nat.zero_le _
    · have hb := hbound _ hmem'
      omega
  · rw [← List.cons_append, List.getLast?_concat]

set_option maxRecDepth 100000 in
/-- C2 counterexample: with no content length the static size 142000000 is
the progress denominator; a single gated chunk of 150000000 bytes makes the
mid event report 150000000 while the final completed event reports
142000000, so the downloaded sequence of this successful run decreases. -/
theorem download_progress_not_monotone :
    (download_whisper_model "base" ["h"] (fun _ => false)
        ⟨true, none, [150000000], none, ""⟩ [true]).result =
      Except.ok ⟨true, "Model base downloaded successfully",
        some ["h", ".voiceintelligence", "whisper", "ggml-base.en.bin"]⟩ ∧
    (download_whisper_model "base" ["h"] (fun _ => false)
        ⟨true, none, [150000000], none, ""⟩ [true]).events.map (·.downloaded) =
      [0, 150000000, 142000000] ∧
    ¬ List.Chain' (· ≤ ·)
      ((download_whisper_model "base" ["h"] (fun _ => false)
          ⟨true, none, [150000000], none, ""⟩ [true]).events.map (·.downloaded)) := by
  refine ⟨by decide, by decide, ?_⟩
  intro h
  rw [show (download_whisper_model "base" ["h"] (fun _ => false)
      ⟨true, none, [150000000], none, ""⟩ [true]).events.map (·.downloaded) =
      [0, 150000000, 142000000] from by decide] at h
  rw [List.chain'_cons, List.chain'_cons] at h
  exact absurd h.2.1 (by decide)

set_option maxRecDepth 100000 in
/-- Witness for C2 on a bounded run of the base model: chunks of 100 and 42
bytes against a content length of 142000000. -/
theorem download_progress_monotone_witness :
    (modelsInfo.find? (fun x => x.id == "base") =
      some ⟨"base", "Base (English)", "142 MB", 142000000, "ggml-base.en.bin", false⟩) ∧
    ([100, 42] : List Nat).sum ≤ 142000000 ∧
    List.Chain' (· ≤ ·)
      ((download_whisper_model "base" ["h"] (fun _ => false)
          ⟨true, none, [100, 42], none, ""⟩ [true, true]).events.map (·.downloaded)) ∧
    (download_whisper_model "base" ["h"] (fun _ => false)
        ⟨true, none, [100, 42], none, ""⟩ [true, true]).events.getLast? =
      some ⟨"base", 142000000, 142000000, 100, "completed"⟩ :=
  ⟨by decide, by decide,
   (download_progress_monotone "base" ["h"] (fun _ => false)
      ⟨true, none, [100, 42], none, ""⟩ [true, true]
      ⟨"base", "Base (English)", "142 MB", 142000000, "ggml-base.en.bin", false⟩
      (by decide) (by decide) rfl rfl (by decide)).1,
   (download_progress_monotone "base" ["h"] (fun _ => false)
      ⟨true, none, [100, 42], none, ""⟩ [true, true]
      ⟨"base", "Base (English)", "142 MB", 142000000, "ggml-base.en.bin", false⟩
      (by decide) (by decide) rfl rfl (by decide)).2⟩
